import Mathlib

/-!
Verification development for `iterm2/claude-status.py`, an iTerm2 AutoLaunch
daemon that keeps a Stream Deck plugin informed of the session→slot mapping
of the current window.

The Python source is shallowly embedded below:

* text handling (`str.strip`, `str.split(maxsplit=1)`, `int(...)`, `str(...)`,
  substring tests) is modelled over `List Char`/`String`;
* the filesystem/process environment relevant to the singleton guard is an
  explicit record `PState` (content of the PID file, injected I/O failures,
  the OS process table, our PID and our parent's PID) threaded through the
  functions; a raised-and-uncaught Python exception is an `Option PyExn`
  paired with the state reached so far;
* `os.kill(pid, SIGKILL)` is recorded in an event list `kills`;
* the mapping builder and HTTP dispatcher are pure functions from the
  application snapshot to the (single) HTTP request they emit.
-/

/-- Kinds of Python exceptions distinguished by the daemon's handlers. -/
inductive PyExn where
  /-- `FileNotFoundError` -/
  | fileNotFound
  /-- `ValueError` -/
  | valueError
  /-- any other `OSError` (e.g. `PermissionError`) -/
  | osError
  /-- `urllib.error.URLError` and friends raised by `urlopen` -/
  | urlError
  deriving DecidableEq, Repr

/-! ### Characters, decimal numerals, `str.strip`, `int(...)`, `str(...)` -/

/-- The ten ASCII decimal digit characters. -/
def digitChars : List Char := ['0', '1', '2', '3', '4'] ++ ['5', '6', '7', '8', '9']

/-- Is `c` an ASCII decimal digit? -/
def isDigitChar (c : Char) : Bool := digitChars.contains c

/-- Numeric value of a digit character (48 is the code point of the zero
digit). -/
def digitVal (c : Char) : Nat := c.toNat - 48

/-- The digit character for `d < 10`. -/
def decChar (d : Nat) : Char := digitChars.getD d '0'

/-- The whitespace characters recognised by Python's `str.strip`/`str.split`. -/
def wsChars : List Char := [' ', '\t', '\n', '\r', '\x0b', '\x0c']

/-- Is `c` whitespace in Python's sense? -/
def isWs (c : Char) : Bool := wsChars.contains c

/-- Decimal digit string of `n`, most significant digit first
(fuel-driven so that it reduces definitionally). -/
def natToDecAux : Nat → Nat → List Char
  | 0, _ => []
  | fuel + 1, n =>
    if n < 10 then [decChar n] else natToDecAux fuel (n / 10) ++ [decChar (n % 10)]

/-- Decimal digit string of `n`. -/
def natToDec (n : Nat) : List Char := natToDecAux (n + 1) n

/-- Python `str(p)` for an `int` value. -/
def pyStr (p : Int) : String :=
  if p < 0 then ⟨'-' :: natToDec (-p).toNat⟩ else ⟨natToDec p.toNat⟩

/-- Python `s.strip()`. -/
def pyStrip (s : String) : String :=
  ⟨(((s.toList.dropWhile isWs).reverse.dropWhile isWs).reverse)⟩

/-- Parse a nonempty all-digit character list as a natural number. -/
def parseDigits (cs : List Char) : Option Nat :=
  if cs ≠ [] ∧ cs.all isDigitChar then
    some (cs.foldl (fun a c => a * 10 + digitVal c) 0)
  else none

/-- Python `int(s)` for a string: surrounding whitespace is ignored, an
optional single sign precedes the digits; anything else raises `ValueError`. -/
def pyInt (s : String) : Except PyExn Int :=
  match (pyStrip s).toList with
  | [] => .error .valueError
  | c :: rest =>
    if c == '-' then
      match parseDigits rest with
      | some n => .ok (-(n : Int))
      | none => .error .valueError
    else if c == '+' then
      match parseDigits rest with
      | some n => .ok (n : Int)
      | none => .error .valueError
    else
      match parseDigits (c :: rest) with
      | some n => .ok (n : Int)
      | none => .error .valueError

/-- Does `needle` start `hay`? -/
def startsWithChars (needle hay : List Char) : Bool :=
  match needle, hay with
  | [], _ => true
  | _ :: _, [] => false
  | a :: as, b :: bs => if a == b then startsWithChars as bs else false

/-- Does `needle` occur contiguously inside `hay`? -/
def containsChars (needle : List Char) : List Char → Bool
  | [] => startsWithChars needle []
  | hay :: rest => startsWithChars needle (hay :: rest) || containsChars needle rest

/-- Python `needle in hay` for strings. -/
def strContains (hay needle : String) : Bool := containsChars needle.toList hay.toList

/-- Python `line.split(maxsplit=1)`: skip leading whitespace, take the first
whitespace-free token, skip the separating whitespace run, keep the remainder
verbatim. -/
def splitMax1 (s : String) : List String :=
  let cs := s.toList.dropWhile isWs
  let tok := cs.takeWhile fun c => !isWs c
  let rest := (cs.dropWhile fun c => !isWs c).dropWhile isWs
  if tok.isEmpty then []
  else if rest.isEmpty then [⟨tok⟩]
  else [⟨tok⟩, ⟨rest⟩]

/-! ### Environment of the singleton guard -/

/-- `os.path.basename(__file__)` for the daemon script. -/
def script_name : String := "claude-status.py"

/-- State of the world as seen by the singleton guard.

`procTable` is the OS process table (PID, full command line), consulted both
by `ps -p <pid> -o command=` and by `ps -ax -o pid=,command=`; `psOk` is
whether the latter enumeration succeeds.  `pidFile` is the content of
`~/.cache/claude-status/daemon.pid` (`none` when absent).  `readErr`
(resp. `writeErr`, `mkdirErr`) injects an `OSError` other than
`FileNotFoundError` when the PID file is opened for reading (resp. opened for
writing, when `os.makedirs` runs).  `kills` records, in order, every PID the
daemon passed to `os.kill(·, SIGKILL)`. -/
structure PState where
  pidFile : Option String
  readErr : Bool
  writeErr : Bool
  mkdirErr : Bool
  procTable : List (Int × String)
  psOk : Bool
  myPid : Int
  parentPid : Int
  kills : List Int
  deriving DecidableEq, Repr

/-- `_is_claude_status_daemon(pid)`: run `ps -p pid -o command=`; if that
fails (unknown PID) the answer is `False`; otherwise strip the output and
test the two substrings. -/
def is_claude_status_daemon (s : PState) (pid : Int) : Bool :=
  match s.procTable.lookup pid with
  | none => false
  | some out =>
    let output := pyStrip out
    strContains output ("/" ++ script_name) && strContains output "AutoLaunch"

/-- `_kill_pid(pid)`: refuse non-positive PIDs and our own PID, otherwise
send `SIGKILL` (lookup/permission errors from `os.kill` are swallowed, so the
attempt is recorded unconditionally). -/
def kill_pid (s : PState) (pid : Int) : PState :=
  if pid ≤ 0 || pid == s.myPid then s
  else { s with kills := s.kills ++ [pid] }

/-- `_kill_previous_from_pidfile()`: read the PID file, and if its PID passes
`_is_claude_status_daemon`, kill it.  `FileNotFoundError` and `ValueError`
are caught; any other `OSError` while opening the file propagates. -/
def kill_previous_from_pidfile (s : PState) : PState × Option PyExn :=
  if s.readErr then (s, some .osError)
  else
    match s.pidFile with
    | none => (s, none)
    | some content =>
      match pyInt content with
      | .error _ => (s, none)
      | .ok old_pid =>
        if is_claude_status_daemon s old_pid then (kill_pid s old_pid, none)
        else (s, none)

/-- One line of `ps -ax -o pid=,command=` output for a process-table entry. -/
def psLine (e : Int × String) : String := pyStr e.1 ++ " " ++ e.2

/-- The `splitlines()` of the `ps -ax -o pid=,command=` output. -/
def ps_ax_lines (table : List (Int × String)) : List String := table.map psLine

/-- Body of the `for line in output.splitlines()` loop of
`_kill_other_daemons`. -/
def processLine (s : PState) (line : String) : PState :=
  match splitMax1 (pyStrip line) with
  | [pid_str, command] =>
    match pyInt pid_str with
    | .error _ => s
    | .ok pid =>
      if pid == s.myPid || pid == s.parentPid then s
      else if !strContains command ("/" ++ script_name) then s
      else if !strContains command "AutoLaunch" then s
      else kill_pid s pid
  | _ => s

/-- `_kill_other_daemons()`: enumerate the process table (giving up silently
if `ps` fails) and kill every other AutoLaunch copy of the script. -/
def kill_other_daemons (s : PState) : PState :=
  if s.psOk then (ps_ax_lines s.procTable).foldl processLine s else s

/-- `acquire_singleton()`: make the marker directory (failure aborts), kill
the previous instance named by the PID file, sweep the process table, then
write our own PID to the marker. -/
def acquire_singleton (s : PState) : PState × Option PyExn :=
  if s.mkdirErr then (s, some .osError)
  else
    match kill_previous_from_pidfile s with
    | (s1, some e) => (s1, some e)
    | (s1, none) =>
      let s2 := kill_other_daemons s1
      if s2.writeErr then (s2, some .osError)
      else ({ s2 with pidFile := some (pyStr s2.myPid) }, none)

/-- `_cleanup_pid()` (registered with `atexit`): delete the marker, but only
when it still records our own PID; `FileNotFoundError`/`ValueError` are
caught. -/
def cleanup_pid (s : PState) : PState × Option PyExn :=
  if s.readErr then (s, some .osError)
  else
    match s.pidFile with
    | none => (s, none)
    | some content =>
      match pyInt content with
      | .error _ => (s, none)
      | .ok p =>
        if p == s.myPid then ({ s with pidFile := none }, none)
        else (s, none)

/-! ### Mapping builder and HTTP dispatcher -/

/-- One iTerm2 session (a pane). -/
structure Session where
  session_id : String
  deriving DecidableEq, Repr

/-- One tab; `sessions` lists every split pane it hosts. -/
structure Tab where
  sessions : List Session
  deriving DecidableEq, Repr

/-- One window with its tab sequence in display order. -/
structure Window where
  tabs : List Tab
  deriving DecidableEq, Repr

/-- The application snapshot: `app.current_window` may be absent. -/
structure App where
  current_window : Option Window
  deriving DecidableEq, Repr

/-- `MAX_SLOTS` -/
def MAX_SLOTS : Nat := 8

/-- `PLUGIN_URL` -/
def PLUGIN_URL : String := "http://127.0.0.1:51820/sessions"

/-- A Python `dict[str, int]` keeping insertion order. -/
abbrev Mapping := List (String × Nat)

/-- `mapping[k] = v`: update an existing key in place, else append. -/
def dictInsert (d : Mapping) (k : String) (v : Nat) : Mapping :=
  if d.any fun e => e.1 == k then d.map fun e => if e.1 == k then (k, v) else e
  else d ++ [(k, v)]

/-- `mapping.get(k)` (first matching entry; keys are unique by construction). -/
def dictLookup (d : Mapping) (k : String) : Option Nat :=
  (d.find? fun e => e.1 == k).map Prod.snd

/-- Inner loop of `send_mapping`: `for session in tab.sessions:
mapping[session.session_id] = slot`. -/
def insertTab (d : Mapping) (t : Tab) (slot : Nat) : Mapping :=
  t.sessions.foldl (fun acc sess => dictInsert acc sess.session_id slot) d

/-- Outer loop of `send_mapping`: `for i, tab in enumerate(window.tabs)`,
stopping as soon as `slot = i + 1` exceeds `MAX_SLOTS`. -/
def buildFrom : List Tab → Nat → Mapping → Mapping
  | [], _, d => d
  | t :: rest, i, d =>
    if i + 1 > MAX_SLOTS then d
    else buildFrom rest (i + 1) (insertTab d t (i + 1))

/-- The mapping-construction half of `send_mapping` (lines 126–135). -/
def buildMapping (app : App) : Mapping :=
  match app.current_window with
  | none => []
  | some w => buildFrom w.tabs 0 []

/-- Does tab `t` host a session with identifier `sid`? -/
def tabHosts (t : Tab) (sid : String) : Bool :=
  t.sessions.any fun sess => sess.session_id == sid

/-- Hexadecimal digit characters. -/
def hexChars : List Char := digitChars ++ ['a', 'b', 'c', 'd', 'e', 'f']

/-- Lowercase hex digit of `n < 16`. -/
def hexDigit (n : Nat) : Char := hexChars.getD n '0'

/-- `\uXXXX` escape for a 16-bit code unit. -/
def uHex (n : Nat) : List Char :=
  ['\\', 'u', hexDigit (n / 4096 % 16), hexDigit (n / 256 % 16),
   hexDigit (n / 16 % 16), hexDigit (n % 16)]

/-- How `json.dumps` (default `ensure_ascii=True`) renders one character of a
string value. -/
def jsonEscapeChar (c : Char) : List Char :=
  if c == '"' then ['\\', '"']
  else if c == '\\' then ['\\', '\\']
  else if c == '\n' then ['\\', 'n']
  else if c == '\r' then ['\\', 'r']
  else if c == '\t' then ['\\', 't']
  else if c == '\x08' then ['\\', 'b']
  else if c == '\x0c' then ['\\', 'f']
  else if c.toNat < 0x20 then uHex c.toNat
  else if c.toNat < 0x7f then [c]
  else if c.toNat < 0x10000 then uHex c.toNat
  else uHex (0xd800 + (c.toNat - 0x10000) / 0x400) ++ uHex (0xdc00 + (c.toNat - 0x10000) % 0x400)

/-- JSON string literal for `s`. -/
def jsonString (s : String) : List Char :=
  '"' :: (s.toList.map jsonEscapeChar).flatten ++ ['"']

/-- `json.dumps(mapping)` for a `dict[str, int]` (default separators). -/
def jsonDumps (d : Mapping) : String :=
  ⟨'\x7b' ::
    (List.intercalate [',', ' ']
      (d.map fun e => jsonString e.1 ++ ':' :: ' ' :: natToDec e.2)) ++ ['\x7d']⟩

/-- One outbound HTTP request as assembled by `urllib.request.Request` plus
the `timeout` passed to `urlopen`. -/
structure HttpRequest where
  url : String
  body : String
  headers : List (String × String)
  method : String
  timeoutSecs : Nat
  deriving DecidableEq, Repr

/-- The request `send_mapping` issues for a given mapping. -/
def mkRequest (m : Mapping) : HttpRequest :=
  { url := PLUGIN_URL
    body := jsonDumps m
    headers := [("Content-Type", "application/json")]
    method := "POST"
    timeoutSecs := 2 }

/-- Whether the listener accepts the POST; `failure` covers connection
refused, timeout and error statuses, all surfacing as an exception from
`urlopen`. -/
inductive HttpOutcome where
  | success
  | failure
  deriving DecidableEq, Repr

/-- The `try` body of `send_mapping` (lines 137–145): serialize, issue the
single POST, and report the exception `urlopen` raises on failure together
with the requests issued so far. -/
def send_mapping_attempt (app : App) (out : HttpOutcome) :
    List HttpRequest × Option PyExn :=
  let req := mkRequest (buildMapping app)
  match out with
  | .success => ([req], none)
  | .failure => ([req], some .urlError)

/-- `send_mapping(app)`: the `try` body wrapped in `except Exception: pass`.
The first component lists the HTTP requests issued, the second the exception
escaping to the caller. -/
def send_mapping (app : App) (out : HttpOutcome) :
    List HttpRequest × Option PyExn :=
  ((send_mapping_attempt app out).1, none)

/-! ### The three monitor loops, as event traces -/

/-- Observable steps of one iteration of a monitor loop. -/
inductive DaemonEvent where
  /-- `await layout_mon.async_get()` -/
  | awaitLayoutChange
  /-- `await term_mon.async_get()` -/
  | awaitSessionTermination
  /-- `await asyncio.sleep(·)` for the given milliseconds -/
  | sleepMs (ms : Nat)
  /-- `await send_mapping(app)` (rebuild the mapping, then POST it) -/
  | rebuildAndSend
  deriving DecidableEq, Repr

/-- One iteration of `layout_loop`. -/
def layout_loop_iteration : List DaemonEvent :=
  [.awaitLayoutChange, .rebuildAndSend]

/-- One iteration of `term_loop`: the 100 ms grace delay sits between the
notification and the rebuild. -/
def term_loop_iteration : List DaemonEvent :=
  [.awaitSessionTermination, .sleepMs 100, .rebuildAndSend]

/-- One iteration of `heartbeat_loop`. -/
def heartbeat_loop_iteration : List DaemonEvent :=
  [.sleepMs 30000, .rebuildAndSend]

/-! ### Lemmas: digits and decimal numerals -/

lemma isDigitChar_props (c : Char) (h : isDigitChar c = true) :
    isWs c = false ∧ (c == '-') = false ∧ (c == '+') = false := by
  have hc : c ∈ digitChars := by
    simpa [isDigitChar, List.contains] using h
  fin_cases hc <;> decide

lemma decChar_isDigit (d : Nat) (h : d < 10) : isDigitChar (decChar d) = true := by
  interval_cases d <;> decide

lemma digitVal_decChar (d : Nat) (h : d < 10) : digitVal (decChar d) = d := by
  interval_cases d <;> decide

lemma natToDecAux_spec (fuel : Nat) : ∀ n : Nat, n < fuel →
    natToDecAux fuel n ≠ [] ∧ (natToDecAux fuel n).all isDigitChar = true ∧
      (natToDecAux fuel n).foldl (fun a c => a * 10 + digitVal c) 0 = n := by
  induction fuel with
  | zero => intro n hn; omega
  | succ fuel ih =>
    intro n hn
    by_cases h10 : n < 10
    · refine ⟨by simp [natToDecAux, h10], ?_, ?_⟩
      · simp [natToDecAux, h10, decChar_isDigit n h10]
      · simp [natToDecAux, h10, digitVal_decChar n h10]
    · have hdiv : n / 10 < fuel := by
        have h1 : n / 10 < n := Nat.div_lt_self (by omega) (by omega)
        omega
      obtain ⟨hne, hall, hval⟩ := ih (n / 10) hdiv
      rw [natToDecAux]
      simp only [h10, if_false]
      refine ⟨by simp, ?_, ?_⟩
      · rw [List.all_append, hall]
        simp [decChar_isDigit (n % 10) (Nat.mod_lt n (by omega))]
      · rw [List.foldl_append, hval]
        simp [digitVal_decChar (n % 10) (Nat.mod_lt n (by omega))]
        omega

lemma natToDec_spec (n : Nat) :
    natToDec n ≠ [] ∧ (natToDec n).all isDigitChar = true ∧
      parseDigits (natToDec n) = some n := by
  obtain ⟨hne, hall, hval⟩ := natToDecAux_spec (n + 1) n (by omega)
  have hne' : natToDec n ≠ [] := hne
  have hall' : (natToDec n).all isDigitChar = true := hall
  refine ⟨hne', hall', ?_⟩
  unfold parseDigits
  rw [if_pos ⟨hne', hall'⟩]
  exact congrArg some hval

/-! ### Lemmas: `takeWhile`/`dropWhile` plumbing -/

lemma dropWhile_eq_self_of_allFalse {p : Char → Bool} :
    ∀ l : List Char, (∀ x ∈ l, p x = false) → l.dropWhile p = l := by
  intro l h
  induction l with
  | nil => rfl
  | cons a t ih =>
    rw [List.dropWhile_cons, h a (by simp)]
    simp [ih fun x hx => h x (by simp [hx])]

lemma length_dropWhile_le (p : Char → Bool) :
    ∀ l : List Char, (l.dropWhile p).length ≤ l.length := by
  intro l
  induction l with
  | nil => simp
  | cons a t ih =>
    rw [List.dropWhile_cons]
    by_cases hpa : p a = true
    · simp only [hpa, if_true, List.length_cons]
      omega
    · simp [hpa]

lemma dropWhile_head_false {p : Char → Bool} (l : List Char) (a : Char) (t : List Char)
    (hl : l.dropWhile p = l) (he : l = a :: t) : p a = false := by
  subst he
  by_contra hcon
  have hpa : p a = true := by revert hcon; cases p a <;> simp
  rw [List.dropWhile_cons, hpa, if_pos rfl] at hl
  have h1 := length_dropWhile_le p t
  have h2 := congrArg List.length hl
  simp at h2
  omega

lemma takeWhile_append_stop {q : Char → Bool} :
    ∀ l₁ : List Char, ∀ a : Char, ∀ l₂ : List Char,
      (∀ x ∈ l₁, q x = true) → q a = false →
      (l₁ ++ a :: l₂).takeWhile q = l₁ := by
  intro l₁
  induction l₁ with
  | nil => intro a l₂ _ ha; simp [List.takeWhile_cons, ha]
  | cons b t ih =>
    intro a l₂ hall ha
    have hb : q b = true := hall b (by simp)
    simp [List.takeWhile_cons, hb, ih a l₂ (fun x hx => hall x (by simp [hx])) ha]

lemma dropWhile_append_stop {q : Char → Bool} :
    ∀ l₁ : List Char, ∀ a : Char, ∀ l₂ : List Char,
      (∀ x ∈ l₁, q x = true) → q a = false →
      (l₁ ++ a :: l₂).dropWhile q = a :: l₂ := by
  intro l₁
  induction l₁ with
  | nil => intro a l₂ _ ha; simp [List.dropWhile_cons, ha]
  | cons b t ih =>
    intro a l₂ hall ha
    have hb : q b = true := hall b (by simp)
    simp [List.dropWhile_cons, hb, ih a l₂ (fun x hx => hall x (by simp [hx])) ha]

/-! ### Lemmas: `pyStrip`, `pyStr`, `pyInt` -/

lemma pyStrip_of_allNonWs (cs : List Char) (h : ∀ x ∈ cs, isWs x = false) :
    pyStrip ⟨cs⟩ = ⟨cs⟩ := by
  have h1 : cs.dropWhile isWs = cs := dropWhile_eq_self_of_allFalse cs h
  have h2 : cs.reverse.dropWhile isWs = cs.reverse :=
    dropWhile_eq_self_of_allFalse cs.reverse fun x hx => h x (List.mem_reverse.mp hx)
  simp [pyStrip, String.toList, h1, h2]

lemma pyStr_chars (p : Int) :
    (pyStr p).toList ≠ [] ∧ ∀ x ∈ (pyStr p).toList, isWs x = false := by
  obtain ⟨hne, hall, -⟩ := natToDec_spec (p.natAbs)
  have hdig : ∀ x ∈ natToDec p.natAbs, isWs x = false := fun x hx =>
    (isDigitChar_props x ((List.all_eq_true.mp hall) x hx)).1
  by_cases hp : p < 0
  · have : (-p).toNat = p.natAbs := by omega
    refine ⟨by simp [pyStr, hp, String.toList, this], ?_⟩
    intro x hx
    simp only [pyStr, hp, if_pos rfl, String.toList, this] at hx
    rcases List.mem_cons.mp hx with h | h
    · subst h; decide
    · exact hdig x h
  · have : p.toNat = p.natAbs := by omega
    refine ⟨by simp [pyStr, hp, String.toList, this, hne], ?_⟩
    intro x hx
    simp only [pyStr, hp, if_neg hp, String.toList, this] at hx
    exact hdig x hx

lemma pyInt_pyStr (p : Int) : pyInt (pyStr p) = .ok p := by
  obtain ⟨hne, hnws⟩ := pyStr_chars p
  have hstrip : pyStrip (pyStr p) = pyStr p := by
    have := pyStrip_of_allNonWs (pyStr p).toList hnws
    simpa using this
  by_cases hp : p < 0
  · have htn : (-p).toNat = p.natAbs := by omega
    have hlist : (pyStr p).toList = '-' :: natToDec p.natAbs := by
      simp [pyStr, hp, String.toList, htn]
    obtain ⟨-, -, hparse⟩ := natToDec_spec p.natAbs
    rw [pyInt, hstrip, hlist]
    simp [hparse, abs_of_neg hp]
  · have htn : p.toNat = p.natAbs := by omega
    have hlist : (pyStr p).toList = natToDec p.natAbs := by
      simp [pyStr, hp, String.toList, htn]
    obtain ⟨hne', hall, hparse⟩ := natToDec_spec p.natAbs
    obtain ⟨c, rest, hcr⟩ : ∃ c rest, natToDec p.natAbs = c :: rest := by
      cases h : natToDec p.natAbs with
      | nil => exact absurd h hne'
      | cons c rest => exact ⟨c, rest, rfl⟩
    have hcdig : isDigitChar c = true := by
      have := List.all_eq_true.mp hall c (by rw [hcr]; simp)
      exact this
    obtain ⟨-, hdash, hplus⟩ := isDigitChar_props c hcdig
    rw [pyInt, hstrip, hlist, hcr]
    simp [hdash, hplus, ← hcr, hparse, abs_of_nonneg (not_lt.mp hp)]

/-! ### Lemmas: parsing the `ps -ax` lines -/

/-- A realistic command line: nonempty, with no leading or trailing
whitespace. -/
def CleanCmd (c : String) : Prop :=
  c.toList ≠ [] ∧ c.toList.dropWhile isWs = c.toList ∧
    c.toList.reverse.dropWhile isWs = c.toList.reverse

instance (c : String) : Decidable (CleanCmd c) := by
  unfold CleanCmd; infer_instance

lemma CleanCmd.strip {c : String} (hc : CleanCmd c) : pyStrip c = c := by
  obtain ⟨-, h1, h2⟩ := hc
  simp only [pyStrip, String.toList] at h1 h2 ⊢
  rw [h1, h2, List.reverse_reverse]

lemma psLine_toList (p : Int) (c : String) :
    (psLine (p, c)).toList = (pyStr p).toList ++ ' ' :: c.toList := by
  show (pyStr p ++ " " ++ c).data = (pyStr p).data ++ ' ' :: c.data
  rw [String.data_append, String.data_append]
  simp [show (" " : String).data = [' '] from rfl]

lemma pyStrip_psLine (p : Int) (c : String) (hc : CleanCmd c) :
    pyStrip (psLine (p, c)) = psLine (p, c) := by
  obtain ⟨hCne, hCfront, hCback⟩ := hc
  obtain ⟨hPne, hPnws⟩ := pyStr_chars p
  obtain ⟨a, t, hat⟩ : ∃ a t, (pyStr p).toList = a :: t := by
    cases h : (pyStr p).toList with
    | nil => exact absurd h hPne
    | cons a t => exact ⟨a, t, rfl⟩
  obtain ⟨b, u, hbu⟩ : ∃ b u, c.toList.reverse = b :: u := by
    cases h : c.toList.reverse with
    | nil => exact absurd (by simpa using h) hCne
    | cons b u => exact ⟨b, u, rfl⟩
  have ha : isWs a = false := hPnws a (by rw [hat]; simp)
  have hb : isWs b = false := dropWhile_head_false c.toList.reverse b u hCback hbu
  have hfront : ((pyStr p).toList ++ ' ' :: c.toList).dropWhile isWs =
      (pyStr p).toList ++ ' ' :: c.toList := by
    rw [hat, List.cons_append, List.dropWhile_cons, ha]
    simp
  have hrev : ((pyStr p).toList ++ ' ' :: c.toList).reverse =
      b :: (u ++ ' ' :: (pyStr p).toList.reverse) := by
    rw [List.reverse_append, List.reverse_cons, hbu]
    simp
  have hback : ((pyStr p).toList ++ ' ' :: c.toList).reverse.dropWhile isWs =
      ((pyStr p).toList ++ ' ' :: c.toList).reverse := by
    rw [hrev, List.dropWhile_cons, hb]
    simp
  simp only [pyStrip]
  rw [psLine_toList p c, hfront, hback, List.reverse_reverse]
  exact congrArg String.mk (psLine_toList p c).symm

lemma splitMax1_psLine (p : Int) (c : String) (hc : CleanCmd c) :
    splitMax1 (psLine (p, c)) = [pyStr p, c] := by
  obtain ⟨hCne, hCfront, hCback⟩ := hc
  obtain ⟨hPne, hPnws⟩ := pyStr_chars p
  obtain ⟨a, t, hat⟩ : ∃ a t, (pyStr p).toList = a :: t := by
    cases h : (pyStr p).toList with
    | nil => exact absurd h hPne
    | cons a t => exact ⟨a, t, rfl⟩
  have ha : isWs a = false := hPnws a (by rw [hat]; simp)
  have hfront : ((pyStr p).toList ++ ' ' :: c.toList).dropWhile isWs =
      (pyStr p).toList ++ ' ' :: c.toList := by
    rw [hat, List.cons_append, List.dropWhile_cons, ha]
    simp
  have htok : ((pyStr p).toList ++ ' ' :: c.toList).takeWhile (fun x => !isWs x) =
      (pyStr p).toList :=
    takeWhile_append_stop (pyStr p).toList ' ' c.toList
      (fun x hx => by rw [hPnws x hx]; rfl) rfl
  have hdrop : ((pyStr p).toList ++ ' ' :: c.toList).dropWhile (fun x => !isWs x) =
      ' ' :: c.toList :=
    dropWhile_append_stop (pyStr p).toList ' ' c.toList
      (fun x hx => by rw [hPnws x hx]; rfl) rfl
  have hrest : (' ' :: c.toList).dropWhile isWs = c.toList := by
    rw [List.dropWhile_cons, if_pos (show isWs ' ' = true from rfl)]
    exact hCfront
  simp only [splitMax1, psLine_toList, hfront, htok, hdrop, hrest]
  rw [if_neg ?_, if_neg ?_]
  · show [String.mk (pyStr p).data, String.mk c.data] = [pyStr p, c]
    rfl
  · rw [List.isEmpty_iff]
    exact hCne
  · rw [List.isEmpty_iff]
    exact hPne

/-- The daemon signature used by the sweep: the command line mentions the
script as a path component and carries the AutoLaunch token, and the PID is
neither ours nor our parent's. -/
def sweepPred (me parent : Int) (e : Int × String) : Bool :=
  !(e.1 == me || e.1 == parent) && strContains e.2 ("/" ++ script_name) &&
    strContains e.2 "AutoLaunch"

/-- The PIDs the process-table sweep kills, in table order. -/
def sweepTargets (table : List (Int × String)) (me parent : Int) : List Int :=
  (table.filter (sweepPred me parent)).map Prod.fst

lemma processLine_psLine (s : PState) (p : Int) (c : String) (hc : CleanCmd c)
    (hp : 0 < p) :
    processLine s (psLine (p, c)) =
      if sweepPred s.myPid s.parentPid (p, c) then { s with kills := s.kills ++ [p] }
      else s := by
  rw [processLine, pyStrip_psLine p c hc, splitMax1_psLine p c hc]
  show (match pyInt (pyStr p) with
    | .error _ => s
    | .ok pid =>
      if pid == s.myPid || pid == s.parentPid then s
      else if !strContains c ("/" ++ script_name) then s
      else if !strContains c "AutoLaunch" then s
      else kill_pid s pid) = _
  rw [pyInt_pyStr p]
  show (if p == s.myPid || p == s.parentPid then s
      else if !strContains c ("/" ++ script_name) then s
      else if !strContains c "AutoLaunch" then s
      else kill_pid s p) = _
  by_cases h1 : (p == s.myPid || p == s.parentPid) = true
  · simp [h1, sweepPred]
  · rw [if_neg (by simpa using h1)]
    by_cases h2 : strContains c ("/" ++ script_name) = true
    · by_cases h3 : strContains c "AutoLaunch" = true
      · have hpred : sweepPred s.myPid s.parentPid (p, c) = true := by
          simp only [sweepPred, h2, h3]
          simp only [Bool.not_eq_true] at h1
          simp [h1]
        rw [if_pos hpred]
        simp only [h2, h3]
        show kill_pid s p = _
        rw [kill_pid]
        have hme : (p == s.myPid) = false := by
          rcases Bool.or_eq_false_iff.mp (Bool.not_eq_true _ |>.mp h1) with ⟨h, -⟩
          exact h
        rw [if_neg ?_]
        simp [hme]
        omega
      · have h3' : strContains c "AutoLaunch" = false := by
          revert h3; cases strContains c "AutoLaunch" <;> simp
        have hpred : sweepPred s.myPid s.parentPid (p, c) = false := by
          simp [sweepPred, h3']
        simp [h2, h3', hpred]
    · have h2' : strContains c ("/" ++ script_name) = false := by
        revert h2; cases strContains c ("/" ++ script_name) <;> simp
      have hpred : sweepPred s.myPid s.parentPid (p, c) = false := by
        simp [sweepPred, h2']
      simp [h2', hpred]

lemma foldl_processLine_psLines (table : List (Int × String)) :
    ∀ s : PState, (∀ e ∈ table, CleanCmd e.2) → (∀ e ∈ table, 0 < e.1) →
      (ps_ax_lines table).foldl processLine s =
        { s with kills := s.kills ++ sweepTargets table s.myPid s.parentPid } := by
  induction table with
  | nil => intro s _ _; simp [ps_ax_lines, sweepTargets]
  | cons e rest ih =>
    intro s hclean hpos
    obtain ⟨p, c⟩ := e
    rw [ps_ax_lines, List.map_cons, List.foldl_cons,
      processLine_psLine s p c (hclean (p, c) (by simp)) (hpos (p, c) (by simp))]
    have hcr : ∀ x ∈ rest, CleanCmd x.2 := fun x hx => hclean x (by simp [hx])
    have hpr : ∀ x ∈ rest, 0 < x.1 := fun x hx => hpos x (by simp [hx])
    by_cases hpred : sweepPred s.myPid s.parentPid (p, c) = true
    · rw [if_pos hpred]
      rw [show (rest.map psLine) = ps_ax_lines rest from rfl,
        ih { s with kills := s.kills ++ [p] } hcr hpr]
      simp [sweepTargets, List.filter_cons, hpred]
    · rw [if_neg hpred]
      rw [show (rest.map psLine) = ps_ax_lines rest from rfl, ih s hcr hpr]
      have hpred' : sweepPred s.myPid s.parentPid (p, c) = false := by
        revert hpred; cases sweepPred s.myPid s.parentPid (p, c) <;> simp
      simp [sweepTargets, List.filter_cons, hpred']

lemma kill_other_daemons_spec (s : PState)
    (hclean : ∀ e ∈ s.procTable, CleanCmd e.2) (hpos : ∀ e ∈ s.procTable, 0 < e.1) :
    kill_other_daemons s =
      if s.psOk then
        { s with kills := s.kills ++ sweepTargets s.procTable s.myPid s.parentPid }
      else s := by
  rw [kill_other_daemons]
  by_cases h : s.psOk = true
  · rw [if_pos h, if_pos h, foldl_processLine_psLines s.procTable s hclean hpos]
  · rw [if_neg h, if_neg h]

/-! ### Shape lemmas: the guard only ever appends to `kills` -/

lemma kill_pid_shape (s : PState) (pid : Int) :
    ∃ t, kill_pid s pid = { s with kills := s.kills ++ t } := by
  rw [kill_pid]
  by_cases h : (pid ≤ 0 || pid == s.myPid) = true
  · exact ⟨[], by rw [if_pos h]; simp⟩
  · exact ⟨[pid], by rw [if_neg h]⟩

lemma processLine_shape (s : PState) (line : String) :
    ∃ t, processLine s line = { s with kills := s.kills ++ t } := by
  cases hsp : splitMax1 (pyStrip line) with
  | nil => exact ⟨[], by rw [processLine, hsp]; simp⟩
  | cons a rest =>
    cases rest with
    | nil => exact ⟨[], by rw [processLine, hsp]; simp⟩
    | cons b rest2 =>
      cases rest2 with
      | cons x rest3 => exact ⟨[], by rw [processLine, hsp]; simp⟩
      | nil =>
        have hred : processLine s line =
            match pyInt a with
            | .error _ => s
            | .ok pid =>
              if pid == s.myPid || pid == s.parentPid then s
              else if !strContains b ("/" ++ script_name) then s
              else if !strContains b "AutoLaunch" then s
              else kill_pid s pid := by
          rw [processLine, hsp]
        rw [hred]
        cases hint : pyInt a with
        | error e => exact ⟨[], by simp⟩
        | ok pid =>
          change ∃ t, (if pid == s.myPid || pid == s.parentPid then s
            else if !strContains b ("/" ++ script_name) then s
            else if !strContains b "AutoLaunch" then s
            else kill_pid s pid) = { s with kills := s.kills ++ t }
          by_cases h1 : (pid == s.myPid || pid == s.parentPid) = true
          · exact ⟨[], by rw [if_pos h1]; simp⟩
          rw [if_neg h1]
          by_cases h2 : (!strContains b ("/" ++ script_name)) = true
          · exact ⟨[], by rw [if_pos h2]; simp⟩
          rw [if_neg h2]
          by_cases h3 : (!strContains b "AutoLaunch") = true
          · exact ⟨[], by rw [if_pos h3]; simp⟩
          rw [if_neg h3]
          exact kill_pid_shape s pid

lemma foldl_processLine_shape (lines : List String) :
    ∀ s : PState, ∃ t, lines.foldl processLine s = { s with kills := s.kills ++ t } := by
  induction lines with
  | nil => intro s; exact ⟨[], by simp⟩
  | cons l rest ih =>
    intro s
    obtain ⟨t1, h1⟩ := processLine_shape s l
    obtain ⟨t2, h2⟩ := ih { s with kills := s.kills ++ t1 }
    refine ⟨t1 ++ t2, ?_⟩
    rw [List.foldl_cons, h1, h2]
    simp

lemma kill_other_daemons_shape (s : PState) :
    ∃ t, kill_other_daemons s = { s with kills := s.kills ++ t } := by
  rw [kill_other_daemons]
  by_cases h : s.psOk = true
  · rw [if_pos h]; exact foldl_processLine_shape (ps_ax_lines s.procTable) s
  · rw [if_neg h]; exact ⟨[], by simp⟩

lemma kill_previous_shape (s : PState) :
    ∃ t, (kill_previous_from_pidfile s).1 = { s with kills := s.kills ++ t } := by
  obtain ⟨pf, re, we, mke, pt, ps, mp, pp, ks⟩ := s
  cases re with
  | true => exact ⟨[], by simp [kill_previous_from_pidfile]⟩
  | false =>
    cases pf with
    | none => exact ⟨[], by simp [kill_previous_from_pidfile]⟩
    | some content =>
      cases hint : pyInt content with
      | error e => exact ⟨[], by simp [kill_previous_from_pidfile, hint]⟩
      | ok old =>
        by_cases hd :
            is_claude_status_daemon ⟨some content, false, we, mke, pt, ps, mp, pp, ks⟩ old = true
        · obtain ⟨t, ht⟩ :=
            kill_pid_shape ⟨some content, false, we, mke, pt, ps, mp, pp, ks⟩ old
          exact ⟨t, by simp [kill_previous_from_pidfile, hint, hd, ht]⟩
        · exact ⟨[], by simp [kill_previous_from_pidfile, hint, hd]⟩

/-! ### Lemmas: process-table lookup -/

lemma lookup_none_not_mem (l : List (Int × String)) (a : Int) (h : l.lookup a = none)
    (b : String) : (a, b) ∉ l := by
  induction l with
  | nil => simp
  | cons e t ih =>
    obtain ⟨k, v⟩ := e
    intro hm
    rcases List.mem_cons.mp hm with heq | hmem
    · have hak : (a == k) = true := by
        obtain ⟨h1, -⟩ := Prod.mk.injEq .. ▸ heq
        simp [h1]
      rw [List.lookup, hak] at h
      exact Option.noConfusion h
    · have hak : (a == k) = true ∨ (a == k) = false := by cases a == k <;> simp
      rcases hak with hak | hak
      · rw [List.lookup, hak] at h
        exact Option.noConfusion h
      · rw [List.lookup, hak] at h
        exact ih h hmem

lemma lookup_of_mem_nodup (l : List (Int × String)) (hnd : (l.map Prod.fst).Nodup)
    (a : Int) (b : String) (hm : (a, b) ∈ l) : l.lookup a = some b := by
  induction l with
  | nil => simp at hm
  | cons e t ih =>
    obtain ⟨k, v⟩ := e
    rcases List.mem_cons.mp hm with heq | hmem
    · obtain ⟨h1, h2⟩ := Prod.mk.injEq .. ▸ heq
      rw [List.lookup, show (a == k) = true by simp [h1]]
      simp [h2]
    · have hmap : (((k, v) :: t).map Prod.fst) = k :: t.map Prod.fst := rfl
      rw [hmap] at hnd
      obtain ⟨hknotin, hndt⟩ := List.nodup_cons.mp hnd
      have hain : a ∈ t.map Prod.fst := List.mem_map.mpr ⟨(a, b), hmem, rfl⟩
      have hane : (a == k) = false := by
        have : a ≠ k := fun hcon => hknotin (hcon ▸ hain)
        simp [this]
      rw [List.lookup, hane]
      exact ih hndt hmem

/-! ### Lemmas: exception flow of the guard -/

lemma kill_previous_exn (s : PState) :
    (kill_previous_from_pidfile s).2 = if s.readErr then some PyExn.osError else none := by
  obtain ⟨pf, re, we, mke, pt, ps, mp, pp, ks⟩ := s
  cases re with
  | true => simp [kill_previous_from_pidfile]
  | false =>
    cases pf with
    | none => simp [kill_previous_from_pidfile]
    | some content =>
      cases hint : pyInt content with
      | error e => simp [kill_previous_from_pidfile, hint]
      | ok old =>
        by_cases hd :
            is_claude_status_daemon ⟨some content, false, we, mke, pt, ps, mp, pp, ks⟩ old = true
        · simp [kill_previous_from_pidfile, hint, hd]
        · simp [kill_previous_from_pidfile, hint, hd]

lemma kill_previous_run (s : PState) (hr : s.readErr = false) (c : String) (old : Int)
    (hf : s.pidFile = some c) (hc : pyInt c = .ok old) :
    kill_previous_from_pidfile s =
      (if is_claude_status_daemon s old then kill_pid s old else s, none) := by
  rw [kill_previous_from_pidfile, if_neg (by simp [hr])]
  have hred : (match s.pidFile with
      | none => (s, (none : Option PyExn))
      | some content =>
        match pyInt content with
        | .error _ => (s, none)
        | .ok old_pid =>
          if is_claude_status_daemon s old_pid then (kill_pid s old_pid, none)
          else (s, none)) =
      (match pyInt c with
        | .error _ => (s, (none : Option PyExn))
        | .ok old_pid =>
          if is_claude_status_daemon s old_pid then (kill_pid s old_pid, none)
          else (s, none)) := by
    rw [hf]
  rw [hred, hc]
  change (if is_claude_status_daemon s old then (kill_pid s old, (none : Option PyExn))
    else (s, none)) = _
  by_cases hd : is_claude_status_daemon s old = true
  · rw [if_pos hd, if_pos hd]
  · rw [if_neg hd, if_neg hd]

lemma mem_sweepTargets (table : List (Int × String)) (me parent : Int) (p : Int) :
    p ∈ sweepTargets table me parent ↔
      ∃ c, (p, c) ∈ table ∧ sweepPred me parent (p, c) = true := by
  simp only [sweepTargets, List.mem_map, List.mem_filter]
  constructor
  · rintro ⟨⟨q, c⟩, ⟨hmem, hpred⟩, hfst⟩
    cases hfst
    exact ⟨c, hmem, hpred⟩
  · rintro ⟨c, hmem, hpred⟩
    exact ⟨(p, c), ⟨hmem, hpred⟩, rfl⟩

lemma acquire_singleton_run (s : PState) (hm : s.mkdirErr = false) (hr : s.readErr = false)
    (hw : s.writeErr = false) (c : String) (old : Int)
    (hf : s.pidFile = some c) (hc : pyInt c = .ok old) :
    acquire_singleton s =
      ({ kill_other_daemons (if is_claude_status_daemon s old then kill_pid s old else s) with
          pidFile := some (pyStr s.myPid) }, none) := by
  rw [acquire_singleton, if_neg (by simp [hm]), kill_previous_run s hr c old hf hc]
  have hs1 : ∃ t, (if is_claude_status_daemon s old then kill_pid s old else s) =
      { s with kills := s.kills ++ t } := by
    by_cases hd : is_claude_status_daemon s old = true
    · rw [if_pos hd]; exact kill_pid_shape s old
    · rw [if_neg hd]; exact ⟨[], by simp⟩
  obtain ⟨t1, ht1⟩ := hs1
  obtain ⟨t2, ht2⟩ :=
    kill_other_daemons_shape (if is_claude_status_daemon s old then kill_pid s old else s)
  change (if (kill_other_daemons
        (if is_claude_status_daemon s old then kill_pid s old else s)).writeErr
      then (kill_other_daemons
        (if is_claude_status_daemon s old then kill_pid s old else s), some PyExn.osError)
      else ({ kill_other_daemons
          (if is_claude_status_daemon s old then kill_pid s old else s) with
        pidFile := some (pyStr (kill_other_daemons
          (if is_claude_status_daemon s old then kill_pid s old else s)).myPid) },
        none)) = _
  have hwe : (kill_other_daemons
      (if is_claude_status_daemon s old then kill_pid s old else s)).writeErr = false := by
    rw [ht2, ht1]
    exact hw
  have hmp : (kill_other_daemons
      (if is_claude_status_daemon s old then kill_pid s old else s)).myPid = s.myPid := by
    rw [ht2, ht1]
  rw [if_neg (by rw [hwe]; simp), hmp]

/-! ### Lemmas: Python dict and the mapping builder -/

lemma find_map_update_self (t : Mapping) (k : String) (v : Nat) :
    (t.any fun e => e.1 == k) = true →
    dictLookup (t.map fun e => if e.1 == k then (k, v) else e) k = some v := by
  induction t with
  | nil => simp
  | cons e t' ih =>
    obtain ⟨a, b⟩ := e
    intro hany
    by_cases hak : (a == k) = true
    · simp [dictLookup, hak, List.find?]
    · have hak' : (a == k) = false := by revert hak; cases a == k <;> simp
      have hany' : (t'.any fun e => e.1 == k) = true := by
        simpa [hak'] using hany
      simp only [List.map_cons, hak', Bool.false_eq_true, if_false]
      rw [dictLookup, List.find?]
      simp only [hak']
      exact ih hany'

lemma find_append_new_self (t : Mapping) (k : String) (v : Nat) :
    (t.any fun e => e.1 == k) = false →
    dictLookup (t ++ [(k, v)]) k = some v := by
  induction t with
  | nil => intro _; simp [dictLookup, List.find?]
  | cons e t' ih =>
    obtain ⟨a, b⟩ := e
    intro hany
    rw [List.any_cons] at hany
    have hak : (a == k) = false := by
      revert hany; cases a == k <;> simp
    have hany' : (t'.any fun e => e.1 == k) = false := by
      revert hany; cases t'.any fun e => e.1 == k <;> simp
    rw [List.cons_append, dictLookup, List.find?]
    simp only [hak]
    exact ih hany'

lemma dictLookup_insert_self (d : Mapping) (k : String) (v : Nat) :
    dictLookup (dictInsert d k v) k = some v := by
  rw [dictInsert]
  by_cases hany : (d.any fun e => e.1 == k) = true
  · rw [if_pos hany]; exact find_map_update_self d k v hany
  · have hany' : (d.any fun e => e.1 == k) = false := by
      revert hany; cases d.any fun e => e.1 == k <;> simp
    rw [if_neg (by simp [hany'])]
    exact find_append_new_self d k v hany'

lemma find_map_update_ne (t : Mapping) (k : String) (v : Nat) (q : String)
    (hne : (q == k) = false) :
    dictLookup (t.map fun e => if e.1 == k then (k, v) else e) q = dictLookup t q := by
  have hkq : (k == q) = false := by
    have h1 : ¬ q = k := by simpa using hne
    have h2 : ¬ k = q := fun h => h1 h.symm
    simp [h2]
  induction t with
  | nil => simp
  | cons e t' ih =>
    obtain ⟨a, b⟩ := e
    by_cases hak : (a == k) = true
    · have haq : (a == q) = false := by
        have hkk : a = k := by simpa using hak
        rw [hkk]; exact hkq
      simp only [List.map_cons, hak, if_true]
      rw [dictLookup, List.find?, dictLookup, List.find?]
      simp only [hkq, haq]
      exact ih
    · have hak' : (a == k) = false := by revert hak; cases a == k <;> simp
      simp only [List.map_cons, hak', Bool.false_eq_true, if_false]
      rw [dictLookup, List.find?, dictLookup, List.find?]
      by_cases haq : (a == q) = true
      · simp only [haq]
      · have haq' : (a == q) = false := by revert haq; cases a == q <;> simp
        simp only [haq']
        exact ih

lemma find_append_new_ne (t : Mapping) (k : String) (v : Nat) (q : String)
    (hne : (q == k) = false) :
    dictLookup (t ++ [(k, v)]) q = dictLookup t q := by
  have hkq : (k == q) = false := by
    have h1 : ¬ q = k := by simpa using hne
    have h2 : ¬ k = q := fun h => h1 h.symm
    simp [h2]
  induction t with
  | nil => simp [dictLookup, List.find?, hkq]
  | cons e t' ih =>
    obtain ⟨a, b⟩ := e
    rw [List.cons_append, dictLookup, List.find?, dictLookup, List.find?]
    by_cases haq : (a == q) = true
    · simp only [haq]
    · have haq' : (a == q) = false := by revert haq; cases a == q <;> simp
      simp only [haq']
      exact ih

lemma dictLookup_insert_ne (d : Mapping) (k : String) (v : Nat) (q : String)
    (hne : (q == k) = false) :
    dictLookup (dictInsert d k v) q = dictLookup d q := by
  rw [dictInsert]
  by_cases hany : (d.any fun e => e.1 == k) = true
  · rw [if_pos hany]; exact find_map_update_ne d k v q hne
  · rw [if_neg hany]; exact find_append_new_ne d k v q hne

lemma beq_symm_false {a b : String} (h : (a == b) = false) : (b == a) = false := by
  have h1 : ¬ a = b := by simpa using h
  have h2 : ¬ b = a := fun hc => h1 hc.symm
  simp [h2]

lemma foldl_insert_not_hosted (ss : List Session) :
    ∀ (d : Mapping) (slot : Nat) (sid : String),
      (ss.any fun x => x.session_id == sid) = false →
      dictLookup (ss.foldl (fun acc sess => dictInsert acc sess.session_id slot) d) sid =
        dictLookup d sid := by
  induction ss with
  | nil => intro d slot sid _; rfl
  | cons x ss' ih =>
    intro d slot sid hany
    rw [List.any_cons] at hany
    have hx : (x.session_id == sid) = false := by
      revert hany; cases x.session_id == sid <;> simp
    have hany' : (ss'.any fun y => y.session_id == sid) = false := by
      revert hany; cases ss'.any fun y => y.session_id == sid <;> simp
    rw [List.foldl_cons, ih (dictInsert d x.session_id slot) slot sid hany']
    exact dictLookup_insert_ne d x.session_id slot sid (beq_symm_false hx)

lemma foldl_insert_hosted (ss : List Session) :
    ∀ (d : Mapping) (slot : Nat) (sid : String),
      (ss.any fun x => x.session_id == sid) = true →
      dictLookup (ss.foldl (fun acc sess => dictInsert acc sess.session_id slot) d) sid =
        some slot := by
  induction ss with
  | nil => intro d slot sid h; simp at h
  | cons x ss' ih =>
    intro d slot sid hany
    rw [List.foldl_cons]
    by_cases hrest : (ss'.any fun y => y.session_id == sid) = true
    · exact ih (dictInsert d x.session_id slot) slot sid hrest
    · have hrest' : (ss'.any fun y => y.session_id == sid) = false := by
        revert hrest; cases ss'.any fun y => y.session_id == sid <;> simp
      have hx : (x.session_id == sid) = true := by
        rw [List.any_cons, hrest'] at hany
        simpa using hany
      have hxe : x.session_id = sid := by simpa using hx
      rw [foldl_insert_not_hosted ss' (dictInsert d x.session_id slot) slot sid hrest', hxe]
      exact dictLookup_insert_self d sid slot

lemma buildFrom_lookup_skip (tabs : List Tab) :
    ∀ (i : Nat) (d : Mapping) (sid : String),
      (∀ t ∈ tabs.take (MAX_SLOTS - i), tabHosts t sid = false) →
      dictLookup (buildFrom tabs i d) sid = dictLookup d sid := by
  induction tabs with
  | nil => intro i d sid _; rfl
  | cons t rest ih =>
    intro i d sid hskip
    rw [buildFrom]
    by_cases hcut : i + 1 > MAX_SLOTS
    · rw [if_pos hcut]
    · rw [if_neg hcut]
      have hlt : 1 ≤ MAX_SLOTS - i := by omega
      have htake : (t :: rest).take (MAX_SLOTS - i) = t :: rest.take (MAX_SLOTS - i - 1) := by
        obtain ⟨m, hm⟩ : ∃ m, MAX_SLOTS - i = m + 1 := ⟨MAX_SLOTS - i - 1, by omega⟩
        rw [hm, List.take_succ_cons]
        congr 1
      have hthost : tabHosts t sid = false := by
        apply hskip
        rw [htake]; simp
      have hrest : ∀ u ∈ rest.take (MAX_SLOTS - (i + 1)), tabHosts u sid = false := by
        intro u hu
        apply hskip
        rw [htake]
        have : MAX_SLOTS - (i + 1) = MAX_SLOTS - i - 1 := by omega
        rw [this] at hu
        simp [hu]
      rw [ih (i + 1) (insertTab d t (i + 1)) sid hrest]
      exact foldl_insert_not_hosted t.sessions d (i + 1) sid hthost

lemma buildFrom_lookup_split (pre : List Tab) :
    ∀ (host : Tab) (post : List Tab) (i : Nat) (d : Mapping) (sid : String),
      (∀ t ∈ pre, tabHosts t sid = false) → tabHosts host sid = true →
      (∀ t ∈ post, tabHosts t sid = false) →
      pre.length + i + 1 ≤ MAX_SLOTS →
      dictLookup (buildFrom (pre ++ host :: post) i d) sid = some (pre.length + i + 1) := by
  induction pre with
  | nil =>
    intro host post i d sid hpre hhost hpost hle
    simp only [List.length_nil] at hle ⊢
    rw [List.nil_append, buildFrom, if_neg (by omega)]
    have hptake : ∀ u ∈ post.take (MAX_SLOTS - (i + 1)), tabHosts u sid = false :=
      fun u hu => hpost u (List.take_subset _ _ hu)
    rw [buildFrom_lookup_skip post (i + 1) (insertTab d host (i + 1)) sid hptake]
    have hfold := foldl_insert_hosted host.sessions d (i + 1) sid hhost
    rw [show insertTab d host (i + 1) =
      host.sessions.foldl (fun acc sess => dictInsert acc sess.session_id (i + 1)) d from rfl]
    rw [hfold]
    congr 1
    omega
  | cons t pre' ih =>
    intro host post i d sid hpre hhost hpost hle
    simp only [List.length_cons] at hle ⊢
    rw [List.cons_append, buildFrom, if_neg (by omega)]
    have hpre' : ∀ u ∈ pre', tabHosts u sid = false := fun u hu => hpre u (by simp [hu])
    have hle' : pre'.length + (i + 1) + 1 ≤ MAX_SLOTS := by omega
    rw [ih host post (i + 1) (insertTab d t (i + 1)) sid hpre' hhost hpost hle']
    congr 1
    omega

/-! ### Claim theorems: singleton guard -/

/-- Claim C10: the kill helper never signals a non-positive PID and never
signals the calling process itself — if `pid ≤ 0` or `pid` equals the current
process's PID, `_kill_pid` sends no signal at all and leaves the state
untouched. -/
theorem kill_pid_guard (s : PState) (pid : Int) (h : pid ≤ 0 ∨ pid = s.myPid) :
    kill_pid s pid = s := by
  rw [kill_pid]
  rcases h with h | h
  · simp [h]
  · simp [h]

/-- Claim C6: at exit, `_cleanup_pid` deletes the marker file only when the
recorded PID equals the current process's PID; when the recorded PID differs,
or the file is missing or unparseable, the marker is left in place. -/
theorem cleanup_pid_ownership (s : PState) :
    ((∃ c, s.pidFile = some c ∧ pyInt c ≠ .ok s.myPid) ∨ s.pidFile = none ∨
        s.readErr = true →
      (cleanup_pid s).1.pidFile = s.pidFile) ∧
    (s.readErr = false → ∀ c, s.pidFile = some c → pyInt c = .ok s.myPid →
      (cleanup_pid s).1.pidFile = none) := by
  obtain ⟨pf, re, we, mke, pt, ps, mp, pp, ks⟩ := s
  cases re with
  | true =>
    constructor
    · intro _; simp [cleanup_pid]
    · intro hfalse; exact absurd hfalse (by simp)
  | false =>
    cases pf with
    | none =>
      constructor
      · intro _; simp [cleanup_pid]
      · intro _ c hc; exact absurd hc (by simp)
    | some content =>
      cases hint : pyInt content with
      | error e =>
        constructor
        · intro _; simp [cleanup_pid, hint]
        · intro _ c hc hok
          have hcc : content = c := by simpa using hc
          rw [← hcc, hint] at hok
          exact absurd hok (by simp)
      | ok p =>
        constructor
        · rintro (⟨c, hc, hne⟩ | hno | hre)
          · have hcc : content = c := by simpa using hc
            rw [← hcc, hint] at hne
            have hpm : (p == mp) = false := by
              have : p ≠ mp := fun hcon => hne (by rw [hcon])
              simp [this]
            simp [cleanup_pid, hint, hpm]
          · exact absurd hno (by simp)
          · exact absurd hre (by simp)
        · intro _ c hc hok
          have hcc : content = c := by simpa using hc
          rw [← hcc, hint] at hok
          have hpm : p = mp := by simpa using hok
          simp [cleanup_pid, hint, hpm]

/-- Claim C2 (amended): `acquire_singleton` swallows a missing or unparseable
PID file, kill failures and process-enumeration failure, but it propagates
directory-creation failure, an unexpected `OSError` while reading the old
marker, and any error while writing the new marker — it returns without an
exception exactly when none of those three I/O failures is injected. -/
theorem acquire_singleton_error_channels (s : PState) :
    (acquire_singleton s).2 = none ↔
      s.mkdirErr = false ∧ s.readErr = false ∧ s.writeErr = false := by
  rw [acquire_singleton]
  by_cases hm : s.mkdirErr = true
  · rw [if_pos hm]
    simp [hm]
  rw [if_neg hm]
  have hm' : s.mkdirErr = false := by revert hm; cases s.mkdirErr <;> simp
  cases hkp : kill_previous_from_pidfile s with
  | mk s1 e1 =>
    have he1 := kill_previous_exn s
    rw [hkp] at he1
    obtain ⟨t1, ht1⟩ := kill_previous_shape s
    rw [hkp] at ht1
    by_cases hr : s.readErr = true
    · rw [if_pos hr] at he1
      rw [show e1 = some PyExn.osError from he1]
      simp [hr]
    · have hr' : s.readErr = false := by revert hr; cases s.readErr <;> simp
      rw [if_neg hr] at he1
      rw [show e1 = (none : Option PyExn) from he1]
      obtain ⟨t2, ht2⟩ := kill_other_daemons_shape s1
      have ht1' : s1 = { s with kills := s.kills ++ t1 } := ht1
      have hwe : (kill_other_daemons s1).writeErr = s.writeErr := by rw [ht2, ht1']
      change (if (kill_other_daemons s1).writeErr
          then (kill_other_daemons s1, some PyExn.osError)
          else ({ kill_other_daemons s1 with
            pidFile := some (pyStr (kill_other_daemons s1).myPid) }, none)).2 = none ↔ _
      by_cases hw : s.writeErr = true
      · rw [if_pos (by rw [hwe, hw])]
        simp [hw]
      · have hw' : s.writeErr = false := by revert hw; cases s.writeErr <;> simp
        rw [if_neg (by rw [hwe, hw']; simp)]
        simp [hm', hr', hw']

/-- Scenario for the C2 counterexample: a healthy environment except that
opening the PID file for writing fails. -/
def writeFailState : PState :=
  { pidFile := none
    readErr := false
    writeErr := true
    mkdirErr := false
    procTable := []
    psOk := true
    myPid := 100
    parentPid := 1
    kills := [] }

/-- Claim C2 counterexample: an I/O error while writing the new marker (with
directory creation succeeding) escapes `acquire_singleton`, contradicting
the claim that only directory-creation failure can abort startup. -/
theorem acquire_singleton_write_error_escapes :
    writeFailState.mkdirErr = false ∧
    (acquire_singleton writeFailState).2 = some PyExn.osError := by decide

/-- Claim C5: with a well-formed process table (positive PIDs, clean command
lines) the sweep kills exactly the enumerated processes whose command line
contains the script name as a path component together with the AutoLaunch
token, excluding the current process and its parent; if enumeration fails,
nothing is killed. -/
theorem kill_other_daemons_sweep (s : PState)
    (hclean : ∀ e ∈ s.procTable, CleanCmd e.2)
    (hpos : ∀ e ∈ s.procTable, 0 < e.1)
    (hkills : s.kills = []) :
    (s.psOk = true → ∀ p : Int,
      (p ∈ (kill_other_daemons s).kills ↔
        ∃ c, (p, c) ∈ s.procTable ∧
          strContains c ("/" ++ script_name) = true ∧
          strContains c "AutoLaunch" = true ∧ p ≠ s.myPid ∧ p ≠ s.parentPid)) ∧
    (s.psOk = false → (kill_other_daemons s).kills = []) := by
  rw [kill_other_daemons_spec s hclean hpos]
  constructor
  · intro hps p
    rw [if_pos hps]
    change p ∈ s.kills ++ sweepTargets s.procTable s.myPid s.parentPid ↔ _
    rw [hkills, List.nil_append, mem_sweepTargets]
    constructor
    · rintro ⟨c, hmem, hpred⟩
      have h1 : (p == s.myPid) = false ∧ (p == s.parentPid) = false ∧
          strContains c ("/" ++ script_name) = true ∧
          strContains c "AutoLaunch" = true := by
        revert hpred
        cases hme : p == s.myPid <;> cases hpar : p == s.parentPid <;>
          cases hA : strContains c ("/" ++ script_name) <;>
          cases hB : strContains c "AutoLaunch" <;> simp [sweepPred, hme, hpar, hA, hB]
      exact ⟨c, hmem, h1.2.2.1, h1.2.2.2, by simpa using h1.1, by simpa using h1.2.1⟩
    · rintro ⟨c, hmem, hA, hB, hme, hpar⟩
      refine ⟨c, hmem, ?_⟩
      simp [sweepPred, hA, hB, hme, hpar]
  · intro hps
    rw [if_neg (by simp [hps]), hkills]

/-- Claim C1: for an existing marker whose recorded PID matches the daemon
signature, `acquire_singleton` SIGKILLs that PID and writes a fresh marker
holding the caller's own PID; for a marker whose recorded PID does not match
the signature, that PID is never signalled. -/
theorem acquire_singleton_supersession (s : PState)
    (hnd : (s.procTable.map Prod.fst).Nodup)
    (hclean : ∀ e ∈ s.procTable, CleanCmd e.2)
    (hpos : ∀ e ∈ s.procTable, 0 < e.1)
    (hkills : s.kills = [])
    (hm : s.mkdirErr = false) (hr : s.readErr = false) (hw : s.writeErr = false)
    (c : String) (old : Int)
    (hf : s.pidFile = some c) (hc : pyInt c = .ok old)
    (hopos : 0 < old) (hne : old ≠ s.myPid) :
    (is_claude_status_daemon s old = true →
      old ∈ (acquire_singleton s).1.kills ∧
      (acquire_singleton s).1.pidFile = some (pyStr s.myPid)) ∧
    (is_claude_status_daemon s old = false →
      old ∉ (acquire_singleton s).1.kills) := by
  rw [acquire_singleton_run s hm hr hw c old hf hc]
  constructor
  · intro hd
    rw [if_pos hd]
    have hkill : kill_pid s old = { s with kills := s.kills ++ [old] } := by
      rw [kill_pid, if_neg (by simp [hne, show ¬ old ≤ 0 by omega])]
    obtain ⟨t2, ht2⟩ := kill_other_daemons_shape (kill_pid s old)
    constructor
    · change old ∈ (kill_other_daemons (kill_pid s old)).kills
      rw [ht2]
      change old ∈ (kill_pid s old).kills ++ t2
      rw [hkill]
      change old ∈ (s.kills ++ [old]) ++ t2
      rw [hkills]
      simp
    · rfl
  · intro hd
    rw [if_neg (by simp [hd])]
    change old ∉ (kill_other_daemons s).kills
    rw [kill_other_daemons_spec s hclean hpos]
    by_cases hps : s.psOk = true
    · rw [if_pos hps]
      change old ∉ s.kills ++ sweepTargets s.procTable s.myPid s.parentPid
      rw [hkills, List.nil_append]
      intro hmem
      obtain ⟨c', hmem', hpred⟩ := (mem_sweepTargets s.procTable s.myPid s.parentPid old).mp hmem
      have hAB : strContains c' ("/" ++ script_name) = true ∧
          strContains c' "AutoLaunch" = true := by
        revert hpred
        cases hA : strContains c' ("/" ++ script_name) <;>
          cases hB : strContains c' "AutoLaunch" <;> simp [sweepPred, hA, hB]
      cases hlk : s.procTable.lookup old with
      | none => exact lookup_none_not_mem s.procTable old hlk c' hmem'
      | some out =>
        have hout : out = c' := by
          have := lookup_of_mem_nodup s.procTable hnd old c' hmem'
          rw [hlk] at this
          simpa using this
        have hstrip : pyStrip c' = c' := (hclean (old, c') hmem').strip
        rw [is_claude_status_daemon, hlk] at hd
        simp only [hout, hstrip] at hd
        rw [hAB.1, hAB.2] at hd
        simp at hd
    · rw [if_neg hps]
      change old ∉ s.kills
      rw [hkills]
      simp

/-! ### Claim theorems: mapping builder, dispatcher, loops -/

/-- Claim C3: in a window whose tab sequence splits as `pre ++ host :: post`
with `sid` hosted (as one of possibly several split panes) only by `host`,
the mapping built by `send_mapping` assigns slot `pre.length + 1` to `sid`
when that ordinal is at most `MAX_SLOTS`, and assigns no slot to `sid` when
the ordinal exceeds `MAX_SLOTS`. -/
theorem send_mapping_slot_assignment (w : Window) (sid : String)
    (pre post : List Tab) (host : Tab)
    (hsplit : w.tabs = pre ++ host :: post)
    (hhost : tabHosts host sid = true)
    (hpre : ∀ t ∈ pre, tabHosts t sid = false)
    (hpost : ∀ t ∈ post, tabHosts t sid = false) :
    (pre.length + 1 ≤ MAX_SLOTS →
      dictLookup (buildMapping ⟨some w⟩) sid = some (pre.length + 1)) ∧
    (MAX_SLOTS < pre.length + 1 →
      dictLookup (buildMapping ⟨some w⟩) sid = none) := by
  constructor
  · intro hle
    change dictLookup (buildFrom w.tabs 0 []) sid = _
    rw [hsplit]
    have h := buildFrom_lookup_split pre host post 0 [] sid hpre hhost hpost (by omega)
    rw [h]
  · intro hgt
    change dictLookup (buildFrom w.tabs 0 []) sid = none
    rw [hsplit]
    rw [buildFrom_lookup_skip (pre ++ host :: post) 0 [] sid ?_]
    · rfl
    · intro t ht
      have htake : (pre ++ host :: post).take (MAX_SLOTS - 0) =
          pre.take (MAX_SLOTS - 0) := by
        apply List.take_append_of_le_length
        omega
      rw [htake] at ht
      exact hpre t (List.take_subset _ _ ht)

/-- Claim C4: `send_mapping` never raises to its caller — both serialization
and the HTTP POST happen inside a catch-all handler — and exactly one
delivery is attempted, with nothing queued or retried. -/
theorem send_mapping_never_raises (app : App) (out : HttpOutcome) :
    (send_mapping app out).2 = none ∧ (send_mapping app out).1.length = 1 := by
  cases out <;> exact ⟨rfl, rfl⟩

/-- Claim C7: every delivery is a single HTTP POST to
`http://127.0.0.1:51820/sessions` with the `Content-Type: application/json`
header, a 2 second timeout, and a body that is the JSON serialization of the
built mapping — the empty object when the mapping is empty. -/
theorem send_mapping_http_contract (app : App) (out : HttpOutcome) :
    (send_mapping app out).1 =
      [{ url := "http://127.0.0.1:51820/sessions"
         body := jsonDumps (buildMapping app)
         headers := [("Content-Type", "application/json")]
         method := "POST"
         timeoutSecs := 2 }] ∧
    jsonDumps [] = "\x7b\x7d" := by
  cases out <;> exact ⟨rfl, by decide⟩

/-- Claim C8: in the termination loop, the fixed 100 ms grace delay sits
strictly between the termination notification and the rebuild-and-send step,
so the mapping is rebuilt only after the delay has elapsed. -/
theorem term_loop_delay_before_rebuild :
    term_loop_iteration.indexOf (DaemonEvent.sleepMs 100) <
      term_loop_iteration.indexOf DaemonEvent.rebuildAndSend ∧
    term_loop_iteration.indexOf DaemonEvent.awaitSessionTermination <
      term_loop_iteration.indexOf (DaemonEvent.sleepMs 100) ∧
    DaemonEvent.sleepMs 100 ∈ term_loop_iteration ∧
    DaemonEvent.rebuildAndSend ∈ term_loop_iteration := by decide

/-- Claim C9: with no current window the built mapping is empty, and the
empty JSON object is still POSTed rather than the send being skipped. -/
theorem send_mapping_no_window (out : HttpOutcome) :
    buildMapping ⟨none⟩ = [] ∧
    (send_mapping ⟨none⟩ out).1 =
      [{ url := "http://127.0.0.1:51820/sessions"
         body := "\x7b\x7d"
         headers := [("Content-Type", "application/json")]
         method := "POST"
         timeoutSecs := 2 }] := by
  cases out <;> exact ⟨rfl, by decide⟩

/-! ### Concrete scenarios and witnesses -/

instance : DecidableEq (Except PyExn Int) := fun a b =>
  match a, b with
  | .ok x, .ok y => if h : x = y then isTrue (by rw [h]) else isFalse (by simp [h])
  | .error x, .error y => if h : x = y then isTrue (by rw [h]) else isFalse (by simp [h])
  | .ok x, .error y => isFalse (by simp)
  | .error x, .ok y => isFalse (by simp)

/-- Marker names PID 42, which is a live AutoLaunch copy of the script. -/
def superState : PState :=
  { pidFile := some "42"
    readErr := false
    writeErr := false
    mkdirErr := false
    procTable :=
      [(42, "/usr/bin/python3 /Users/u/Library/Application Support/iTerm2/Scripts/AutoLaunch/claude-status.py")]
    psOk := true
    myPid := 100
    parentPid := 1
    kills := [] }

/-- Marker names PID 42, which is an unrelated process. -/
def benignState : PState := { superState with procTable := [(42, "/usr/bin/emacs")] }

/-- Claim C1 witness: on `superState` the recorded PID 42 is killed and the
marker is rewritten with PID 100; on `benignState` PID 42 is left alone. -/
theorem acquire_singleton_supersession_witness :
    (42 ∈ (acquire_singleton superState).1.kills ∧
      (acquire_singleton superState).1.pidFile = some (pyStr superState.myPid)) ∧
    42 ∉ (acquire_singleton benignState).1.kills := by
  constructor
  · exact (acquire_singleton_supersession superState (by decide) (by decide) (by decide)
      rfl rfl rfl rfl "42" 42 rfl rfl (by decide) (by decide)).1 (by decide)
  · exact (acquire_singleton_supersession benignState (by decide) (by decide) (by decide)
      rfl rfl rfl rfl "42" 42 rfl rfl (by decide) (by decide)).2 (by decide)

/-- Process table with one stale daemon (42) and one unrelated process (77). -/
def sweepState : PState :=
  { pidFile := none
    readErr := false
    writeErr := false
    mkdirErr := false
    procTable :=
      [(42, "/usr/bin/python3 /Scripts/AutoLaunch/claude-status.py"), (77, "/usr/bin/bash")]
    psOk := true
    myPid := 100
    parentPid := 1
    kills := [] }

/-- Claim C5 witness: the sweep kills the stale AutoLaunch daemon 42 and
leaves the unrelated process 77 alone. -/
theorem kill_other_daemons_sweep_witness :
    42 ∈ (kill_other_daemons sweepState).kills ∧
    77 ∉ (kill_other_daemons sweepState).kills := by
  have h := kill_other_daemons_sweep sweepState (by decide) (by decide) rfl
  constructor
  · exact (h.1 rfl 42).mpr ⟨"/usr/bin/python3 /Scripts/AutoLaunch/claude-status.py",
      by decide, by decide, by decide, by decide, by decide⟩
  · intro hmem
    obtain ⟨c, hcmem, hA, hB, -, -⟩ := (h.1 rfl 77).mp hmem
    rcases List.mem_cons.mp hcmem with h1 | h1
    · simp at h1
    · rcases List.mem_cons.mp h1 with h2 | h2
      · have hc : c = "/usr/bin/bash" := by
          have := congrArg Prod.snd h2
          simpa using this
        rw [hc] at hB
        exact absurd hB (by decide)
      · simp at h2

/-- Marker written by this very process. -/
def ownState : PState :=
  { pidFile := some "100"
    readErr := false
    writeErr := false
    mkdirErr := false
    procTable := []
    psOk := true
    myPid := 100
    parentPid := 1
    kills := [] }

/-- Marker written by a different (newer) process. -/
def staleState : PState := { ownState with pidFile := some "42" }

/-- Claim C6 witness: cleanup removes the marker when it records our own PID
and leaves a successor's marker in place. -/
theorem cleanup_pid_ownership_witness :
    (cleanup_pid ownState).1.pidFile = none ∧
    (cleanup_pid staleState).1.pidFile = staleState.pidFile :=
  ⟨(cleanup_pid_ownership ownState).2 rfl "100" rfl rfl,
   (cleanup_pid_ownership staleState).1 (Or.inl ⟨"42", rfl, by decide⟩)⟩

/-- Claim C10 witness: `_kill_pid` refuses both a non-positive PID and the
caller's own PID. -/
theorem kill_pid_guard_witness :
    ((-5 : Int) ≤ 0 ∨ (-5 : Int) = ownState.myPid) ∧
    kill_pid ownState (-5) = ownState ∧
    kill_pid ownState 100 = ownState :=
  ⟨Or.inl (by decide), kill_pid_guard ownState (-5) (Or.inl (by decide)),
   kill_pid_guard ownState 100 (Or.inr (by decide))⟩

/-- Nine single-session tabs, with two split panes in tab 3. -/
def demoWindow : Window :=
  ⟨[⟨[⟨"s1"⟩]⟩, ⟨[⟨"s2"⟩]⟩, ⟨[⟨"s3a"⟩, ⟨"s3b"⟩]⟩, ⟨[⟨"s4"⟩]⟩, ⟨[⟨"s5"⟩]⟩,
    ⟨[⟨"s6"⟩]⟩, ⟨[⟨"s7"⟩]⟩, ⟨[⟨"s8"⟩]⟩, ⟨[⟨"s9"⟩]⟩]⟩

/-- Claim C3 witness: the split pane `s3b` of the third tab gets slot 3, and
the session of the ninth tab gets no slot. -/
theorem send_mapping_slot_assignment_witness :
    dictLookup (buildMapping ⟨some demoWindow⟩) "s3b" = some 3 ∧
    dictLookup (buildMapping ⟨some demoWindow⟩) "s9" = none := by
  constructor
  · exact (send_mapping_slot_assignment demoWindow "s3b"
      [⟨[⟨"s1"⟩]⟩, ⟨[⟨"s2"⟩]⟩]
      [⟨[⟨"s4"⟩]⟩, ⟨[⟨"s5"⟩]⟩, ⟨[⟨"s6"⟩]⟩, ⟨[⟨"s7"⟩]⟩, ⟨[⟨"s8"⟩]⟩, ⟨[⟨"s9"⟩]⟩]
      ⟨[⟨"s3a"⟩, ⟨"s3b"⟩]⟩ rfl (by decide) (by decide) (by decide)).1 (by decide)
  · exact (send_mapping_slot_assignment demoWindow "s9"
      [⟨[⟨"s1"⟩]⟩, ⟨[⟨"s2"⟩]⟩, ⟨[⟨"s3a"⟩, ⟨"s3b"⟩]⟩, ⟨[⟨"s4"⟩]⟩, ⟨[⟨"s5"⟩]⟩,
        ⟨[⟨"s6"⟩]⟩, ⟨[⟨"s7"⟩]⟩, ⟨[⟨"s8"⟩]⟩]
      [] ⟨[⟨"s9"⟩]⟩ rfl (by decide) (by decide) (by decide)).2 (by decide)
